import Mathlib

/-!
# Cat vs. Asteroids: the simulation engine of `Code/game.cpp`

A shallow embedding of the class `Game` (`Code/game.h`, `Code/game.cpp`).

Conventions of the embedding:

* `double` members and arguments are exact rationals (`Rat`): every theorem
  below is a statement about the engine in exact arithmetic.
* `int` members are `Int`.  No arithmetic on them can leave the 32 bit
  range: the only operations are the guarded `targetCatX--`, `targetCatX++`
  and `rand() % 3 - 1`.
* `unsigned score` is a `Nat`; the assignment `score = (int) (totalTime / 10.0)`
  truncates toward zero and stores the result in 32 bits.
* `std::vector<Box>` is a `List Box`; `boxes.at(i)` is a bounds-checked read.
* `rand()` is not a function of the engine state: `update` receives the two
  draws it may consume as arguments (`r1` for the spawn time, `r2` for the
  lane, in the order in which the source calls `rand()`).
-/

namespace CatGame

/-- The struct `Box` of `game.h`: lane `x` and depth `z`. -/
structure Box where
  x : Int
  z : Rat
deriving DecidableEq

/-- The three coordinates of a `QVector3D`. -/
structure QVector3D where
  x : Rat
  y : Rat
  z : Rat
deriving DecidableEq

/-- The exception of `std::vector::at`. -/
inductive GameError where
  | outOfRange
deriving DecidableEq

deriving instance DecidableEq for Except

/-- The private members of the class `Game`. -/
structure Game where
  boxes : List Box
  catX : Int
  targetCatX : Int
  interpolator : Rat
  jumping : Bool
  catY : Rat
  catvY : Rat
  score : Nat
  gameOver : Bool
  spawnTime : Rat
  totalTime : Rat
  catRotation : Rat
deriving DecidableEq

/-- The conversion `(int) q` of a `double`: truncation toward zero. -/
def truncate (q : Rat) : Int :=
  if 0 ≤ q then ⌊q⌋ else ⌈q⌉

/-- The store of an `int` into an `unsigned` (32 bits): reduction modulo `2^32`.
For `q` outside the range of `int` the source conversion `(int) q` is
undefined; the embedding then keeps the low 32 bits. -/
def toUnsigned (i : Int) : Nat :=
  (i % 4294967296).toNat

namespace Game

/-- `Game::reset`. -/
def reset (g : Game) : Game :=
  { g with
    gameOver := false
    score := 0
    spawnTime := 0.5
    jumping := false
    catY := 0
    catvY := 0
    catX := 0
    targetCatX := 0
    interpolator := 0
    totalTime := 0
    catRotation := 0
    boxes := [] }

/-- `Game::update`, lines 37 to 39: the clock and the score. -/
def tickClock (g : Game) (dt : Rat) : Game :=
  { g with
    totalTime := g.totalTime + dt
    score := toUnsigned (truncate ((g.totalTime + dt) / 10)) }

/-- `Game::update`, lines 41 to 50: jumping and gravity. -/
def tickJump (g : Game) (dt : Rat) : Game :=
  if g.jumping then
    let vy := g.catvY - dt * 100
    let y := g.catY + vy * dt
    if y < 0 then
      { g with catY := 0, catvY := 0, jumping := false }
    else
      { g with catY := y, catvY := vy }
  else g

/-- `Game::update`, lines 52 to 59: the lateral movement. -/
def tickMove (g : Game) (dt : Rat) : Game :=
  if g.catX ≠ g.targetCatX then
    let t := g.interpolator + dt * 20
    if t ≥ 1 then
      { g with catX := g.targetCatX, interpolator := 0 }
    else
      { g with interpolator := t }
  else g

/-- `Game::update`, lines 62 to 81: the loop `for (i = 0; i < boxes.size(); i++)`
from index `i` on.  `inc` is `dt * (20.0 + totalTime / 1000.0)`.  The result is
`(true, boxes)` when the loop leaves through `gameOver = true; return;` and
`(false, boxes)` when it runs to its end.  Every iteration makes
`boxes.size() - i` one smaller, which the first argument counts. -/
def moveBoxesLoop (inc : Rat) (catX : Int) (catY : Rat) :
    Nat → Nat → List Box → Bool × List Box
  | 0, _, boxes => (false, boxes)
  | fuel + 1, i, boxes =>
    match boxes[i]? with
    | none => (false, boxes)
    | some b0 =>
      let b : Box := { b0 with z := b0.z + inc }
      if b.z > -10.5 ∧ b.z < -9.5 then
        if b.x = catX ∧ catY < 1 then
          (true, boxes)
        else if b.z > 0 then
          moveBoxesLoop inc catX catY fuel i (boxes.eraseIdx i)
        else
          moveBoxesLoop inc catX catY fuel (i + 1) (boxes.set i b)
      else
        moveBoxesLoop inc catX catY fuel (i + 1) (boxes.set i b)

/-- `Game::update`, lines 62 to 81, the whole loop, started at `i = 0`. -/
def moveBoxes (g : Game) (dt : Rat) : Bool × List Box :=
  moveBoxesLoop (dt * (20 + g.totalTime / 1000)) g.catX g.catY g.boxes.length 0 g.boxes

/-- `Game::update`, lines 83 to 96: the spawn timer and the new box. -/
def spawn (g : Game) (dt : Rat) (r1 r2 : Nat) : Game :=
  let s := g.spawnTime - dt
  if s < 0 then
    let s1 : Rat := 0.5 + ((r1 % 100 : Nat) : Rat) / 100 * 2
    let s2 := s1 - g.totalTime / 10000
    let s3 : Rat := if s2 < 0.3 then 0.3 else s2
    { g with
      spawnTime := s3
      boxes := g.boxes ++ [{ x := ((r2 % 3 : Nat) : Int) - 1, z := -100 }] }
  else
    { g with spawnTime := s }

/-- `Game::update`. -/
def update (g : Game) (dt : Rat) (r1 r2 : Nat) : Game :=
  if g.gameOver then
    let rot := g.catRotation + dt * 500
    { g with catRotation := if rot > 90 then 90 else rot }
  else
    let g1 := tickMove (tickJump (tickClock g dt) dt) dt
    match moveBoxes g1 dt with
    | (true, boxes) => { g1 with boxes := boxes, gameOver := true }
    | (false, boxes) => spawn { g1 with boxes := boxes } dt r1 r2

/-- `Game::getBoxCount`. -/
def getBoxCount (g : Game) : Nat :=
  g.boxes.length

/-- `Game::getCatLocation`. -/
def getCatLocation (g : Game) : QVector3D :=
  let interpolatedX : Rat := (g.catX : Rat) + g.interpolator * ((g.targetCatX - g.catX : Int) : Rat)
  { x := interpolatedX * 3, y := g.catY - 4, z := -10 }

/-- `Game::getBoxLocation`: the value returned (or the exception thrown by
`boxes.at(index)`) together with the state after the call. -/
def getBoxLocation (g : Game) (index : Nat) : Except GameError QVector3D × Game :=
  match g.boxes[index]? with
  | none => (Except.error GameError.outOfRange, g)
  | some b => (Except.ok { x := (b.x : Rat) * 3, y := -4, z := b.z }, g)

/-- `Game::goLeft`. -/
def goLeft (g : Game) : Game :=
  if g.targetCatX = g.catX ∧ g.targetCatX ≥ 0 then
    { g with targetCatX := g.targetCatX - 1 }
  else g

/-- `Game::goRight`. -/
def goRight (g : Game) : Game :=
  if g.targetCatX = g.catX ∧ g.targetCatX ≤ 0 then
    { g with targetCatX := g.targetCatX + 1 }
  else g

/-- `Game::jump`. -/
def jump (g : Game) : Game :=
  if g.gameOver then
    reset g
  else if ¬ g.jumping then
    { g with jumping := true, catvY := 30 }
  else g

/-- `Game::getScore`. -/
def getScore (g : Game) : Nat :=
  g.score

/-- `Game::getCatRotation`. -/
def getCatRotation (g : Game) : Rat :=
  g.catRotation

end Game

/-- The constructor `Game::Game()`: `boxes = {}; reset();`.  The members are
not initialised before `reset` runs; `g0` stands for their content. -/
def Game.new (g0 : Game) : Game :=
  Game.reset { g0 with boxes := [] }

/-- One call of the public interface that changes the state. -/
inductive Command where
  | goLeft
  | goRight
  | jump
  | update (dt : Rat) (r1 r2 : Nat)
deriving DecidableEq

/-- The effect of one call. -/
def Command.exec (g : Game) : Command → Game
  | Command.goLeft => g.goLeft
  | Command.goRight => g.goRight
  | Command.jump => g.jump
  | Command.update dt r1 r2 => g.update dt r1 r2

/-- The effect of a sequence of calls, first call first. -/
def run (g : Game) (cmds : List Command) : Game :=
  cmds.foldl Command.exec g

/-- Every `update` of the call has a positive `dt`. -/
def Command.positive : Command → Prop
  | Command.update dt _ _ => 0 < dt
  | _ => True

instance (c : Command) : Decidable c.positive := by
  cases c <;> simp only [Command.positive] <;> infer_instance

/-- The state right after `reset()`. -/
def startState : Game :=
  { boxes := [], catX := 0, targetCatX := 0, interpolator := 0, jumping := false,
    catY := 0, catvY := 0, score := 0, gameOver := false, spawnTime := 0.5,
    totalTime := 0, catRotation := 0 }

/-- The box after `b.z += inc`. -/
def Box.advance (inc : Rat) (b : Box) : Box :=
  { b with z := b.z + inc }

/-- The collision test of lines 67 and 68 on an advanced box. -/
def Box.hits (catX : Int) (catY : Rat) (b : Box) : Prop :=
  (b.z > -10.5 ∧ b.z < -9.5) ∧ (b.x = catX ∧ catY < 1)

instance (catX : Int) (catY : Rat) (b : Box) : Decidable (b.hits catX catY) := by
  unfold Box.hits; infer_instance

/-- One pass over the boxes, written by recursion on the sequence: every box
is advanced and stored until the first one that collides; that one and the
boxes behind it stay as they were. -/
def sweep (inc : Rat) (catX : Int) (catY : Rat) : List Box → Bool × List Box
  | [] => (false, [])
  | b0 :: rest =>
    if (b0.advance inc).hits catX catY then (true, b0 :: rest)
    else ((sweep inc catX catY rest).1, b0.advance inc :: (sweep inc catX catY rest).2)

/-- The state after the clock, gravity and lateral steps of a tick. -/
def Game.tickCat (g : Game) (dt : Rat) : Game :=
  Game.tickMove (Game.tickJump (Game.tickClock g dt) dt) dt

/-- A game with one box in lane 0 just in front of the collision band. -/
def scenarioC : Game :=
  { startState with boxes := [{ x := 0, z := -10.6 }] }

/-- A game that is over, the cat half fallen, with a box left on the track. -/
def fallenGame : Game :=
  { boxes := [{ x := 1, z := -10 }], catX := 1, targetCatX := 1, interpolator := 0,
    jumping := true, catY := 1 / 2, catvY := -3, score := 7, gameOver := true,
    spawnTime := 1 / 4, totalTime := 75, catRotation := 45 }

/-- The lanes of the track. -/
def isLane (x : Int) : Prop :=
  x = -1 ∨ x = 0 ∨ x = 1

instance (x : Int) : Decidable (isLane x) := by
  unfold isLane; infer_instance

/-- One tick that is long enough for `totalTime / 10` to reach `2^32`. -/
def longTick : List Command :=
  [Command.update 42949672960 0 0]

/-- A running game whose stored score is not the one of its clock. -/
def staleScore : Game :=
  { startState with score := 5 }

/-- Three ticks of 10, 25 and 1/60 seconds with a jump in between. -/
def sampleRun : List Command :=
  [Command.update 10 0 0, Command.jump, Command.update 25 7 2, Command.update (1 / 60) 0 0]

/-- The relation between the clock and the score that every call keeps. -/
def clockInv (g : Game) : Prop :=
  0 ≤ g.totalTime ∧ g.score = toUnsigned (truncate (g.totalTime / 10))

/-- What the jump and gravity code keeps true of the cat. -/
def jumpInv (g : Game) : Prop :=
  0 ≤ g.catY ∧ (g.jumping = false → g.catY = 0 ∧ g.catvY = 0)

/-- Two ticks on a new game: the first spawns a box in lane 1, the second
carries it from depth `-100` past depth `0`. -/
def passedRun : List Command :=
  [Command.update 1 0 2, Command.update 5 0 0]

/-- A running game with two boxes on the track. -/
def twoBoxes : Game :=
  { startState with boxes := [{ x := -1, z := -40 }, { x := 1, z := -100 }] }

/-- A running game with the cat between lane 0 and lane 1, in the air. -/
def midMove : Game :=
  { startState with targetCatX := 1, interpolator := 1 / 3, jumping := true,
                    catY := 2, catvY := 5 }

/-- A running game with three boxes: the first passes in lane 1, the second
reaches the cat in lane 0, the third is behind. -/
def threeBoxes : Game :=
  { startState with
    boxes := [{ x := 1, z := -10.6 }, { x := 0, z := -10.6 }, { x := 0, z := -10.7 }] }

/-- What the lateral movement code keeps true of the cat. -/
def moveInv (g : Game) : Prop :=
  isLane g.catX ∧ isLane g.targetCatX ∧
  (g.targetCatX - g.catX ≤ 1 ∧ g.catX - g.targetCatX ≤ 1) ∧
  0 ≤ g.interpolator ∧ g.interpolator < 1 ∧
  (g.catX = g.targetCatX → g.interpolator = 0)

/-- What the code keeps true of the rotation of the cat. -/
def rotInv (g : Game) : Prop :=
  0 ≤ g.catRotation ∧ g.catRotation ≤ 90 ∧ (g.gameOver = false → g.catRotation = 0)

/-- A run that ends with the cat between lane 0 and lane `-1`, in a game that
is running. -/
def slideRun : List Command :=
  [Command.update (1 / 60) 0 0, Command.goLeft, Command.update (1 / 60) 0 0]

/-- A run that ends in a collision followed by one more tick: a box is spawned
in lane 0 and carried into the band under the cat. -/
def crashRun : List Command :=
  [Command.update 1 0 1, Command.update (9 / 2) 0 1, Command.update (1 / 60) 0 0]

/-! ## The loop over the boxes -/

theorem getElem?_append_length_cons (acc rest : List Box) (b : Box) :
    (acc ++ b :: rest)[acc.length]? = some b := by
  induction acc with
  | nil => simp
  | cons a acc ih => simpa using ih

theorem set_append_length_cons (acc rest : List Box) (b c : Box) :
    (acc ++ b :: rest).set acc.length c = (acc ++ [c]) ++ rest := by
  induction acc with
  | nil => simp
  | cons a acc ih => simp [ih]

/-- The index loop, started behind a finished part `acc`, does what `sweep`
does on the remaining boxes, whenever the counter covers them. -/
theorem moveBoxesLoop_eq_sweep (inc : Rat) (catX : Int) (catY : Rat) (rest : List Box) :
    ∀ (acc : List Box) (fuel : Nat), rest.length ≤ fuel →
      Game.moveBoxesLoop inc catX catY fuel acc.length (acc ++ rest)
        = ((sweep inc catX catY rest).1, acc ++ (sweep inc catX catY rest).2) := by
  induction rest with
  | nil =>
    intro acc fuel _
    cases fuel with
    | zero => simp [Game.moveBoxesLoop, sweep]
    | succ f => simp [Game.moveBoxesLoop, sweep]
  | cons b0 rest ih =>
    intro acc fuel hfuel
    cases fuel with
    | zero => simp at hfuel
    | succ f =>
      have hf : rest.length ≤ f := by simpa using hfuel
      have hnext := ih (acc ++ [b0.advance inc]) f hf
      simp only [List.length_append, List.length_singleton, List.append_assoc,
        List.singleton_append] at hnext
      rw [Game.moveBoxesLoop, getElem?_append_length_cons]
      simp only [set_append_length_cons, List.append_assoc, List.singleton_append]
      by_cases hband : (b0.z + inc > -10.5 ∧ b0.z + inc < -9.5)
      · by_cases hcat : (b0.x = catX ∧ catY < 1)
        · simp [sweep, Box.hits, Box.advance, hband, hcat]
        · have hz : ¬ (b0.z + inc > 0) := by
            have := hband.2
            intro h0
            norm_num at this
            linarith
          simp only [hband, hcat, hz]
          simpa [sweep, Box.hits, Box.advance, hband, hcat] using hnext
      · simp only [hband]
        simpa [sweep, Box.hits, Box.advance, hband] using hnext

theorem moveBoxes_eq_sweep (g : Game) (dt : Rat) :
    g.moveBoxes dt
      = sweep (dt * (20 + g.totalTime / 1000)) g.catX g.catY g.boxes := by
  have h := moveBoxesLoop_eq_sweep (dt * (20 + g.totalTime / 1000)) g.catX g.catY
    g.boxes [] g.boxes.length (le_refl _)
  simpa [Game.moveBoxes] using h

theorem sweep_fst_iff (inc : Rat) (catX : Int) (catY : Rat) (boxes : List Box) :
    (sweep inc catX catY boxes).1 = true ↔ ∃ b ∈ boxes, (b.advance inc).hits catX catY := by
  induction boxes with
  | nil => simp [sweep]
  | cons b0 rest ih =>
    by_cases h : (b0.advance inc).hits catX catY
    · simp [sweep, h]
    · simp [sweep, h, ih]

theorem sweep_snd_of_not_hit (inc : Rat) (catX : Int) (catY : Rat) (boxes : List Box)
    (h : (sweep inc catX catY boxes).1 = false) :
    (sweep inc catX catY boxes).2 = boxes.map (Box.advance inc) := by
  induction boxes with
  | nil => simp [sweep]
  | cons b0 rest ih =>
    by_cases hb : (b0.advance inc).hits catX catY
    · simp [sweep, hb] at h
    · simp only [sweep, hb, if_false] at h ⊢
      simp [ih h]

/-! ## The three steps on the cat leave the rest of the state alone -/

theorem tickCat_boxes (g : Game) (dt : Rat) : (g.tickCat dt).boxes = g.boxes := by
  unfold Game.tickCat Game.tickMove Game.tickJump Game.tickClock
  dsimp only
  split_ifs <;> rfl

theorem tickCat_totalTime (g : Game) (dt : Rat) :
    (g.tickCat dt).totalTime = g.totalTime + dt := by
  unfold Game.tickCat Game.tickMove Game.tickJump Game.tickClock
  dsimp only
  split_ifs <;> rfl

theorem tickCat_gameOver (g : Game) (dt : Rat) : (g.tickCat dt).gameOver = g.gameOver := by
  unfold Game.tickCat Game.tickMove Game.tickJump Game.tickClock
  dsimp only
  split_ifs <;> rfl

theorem tickCat_spawnTime (g : Game) (dt : Rat) : (g.tickCat dt).spawnTime = g.spawnTime := by
  unfold Game.tickCat Game.tickMove Game.tickJump Game.tickClock
  dsimp only
  split_ifs <;> rfl

theorem tickCat_targetCatX (g : Game) (dt : Rat) :
    (g.tickCat dt).targetCatX = g.targetCatX := by
  unfold Game.tickCat Game.tickMove Game.tickJump Game.tickClock
  dsimp only
  split_ifs <;> rfl

theorem tickCat_catRotation (g : Game) (dt : Rat) :
    (g.tickCat dt).catRotation = g.catRotation := by
  unfold Game.tickCat Game.tickMove Game.tickJump Game.tickClock
  dsimp only
  split_ifs <;> rfl

theorem tickCat_score (g : Game) (dt : Rat) :
    (g.tickCat dt).score = toUnsigned (truncate ((g.totalTime + dt) / 10)) := by
  unfold Game.tickCat Game.tickMove Game.tickJump Game.tickClock
  dsimp only
  split_ifs <;> rfl

/-- The spawn step changes the spawn timer and the boxes only. -/
theorem spawn_frame (g : Game) (dt : Rat) (r1 r2 : Nat) :
    (g.spawn dt r1 r2).catX = g.catX ∧ (g.spawn dt r1 r2).targetCatX = g.targetCatX ∧
    (g.spawn dt r1 r2).interpolator = g.interpolator ∧
    (g.spawn dt r1 r2).jumping = g.jumping ∧ (g.spawn dt r1 r2).catY = g.catY ∧
    (g.spawn dt r1 r2).catvY = g.catvY ∧ (g.spawn dt r1 r2).score = g.score ∧
    (g.spawn dt r1 r2).gameOver = g.gameOver ∧ (g.spawn dt r1 r2).totalTime = g.totalTime ∧
    (g.spawn dt r1 r2).catRotation = g.catRotation := by
  unfold Game.spawn
  dsimp only
  split_ifs <;> simp

/-- A tick of a running game: the steps on the cat, then the pass over the boxes,
then either the collision exit or the spawn step. -/
theorem update_playing (g : Game) (dt : Rat) (r1 r2 : Nat) (h : g.gameOver = false) :
    g.update dt r1 r2 =
      if (sweep (dt * (20 + (g.totalTime + dt) / 1000)) (g.tickCat dt).catX
            (g.tickCat dt).catY g.boxes).1 = true then
        { g.tickCat dt with
          boxes := (sweep (dt * (20 + (g.totalTime + dt) / 1000)) (g.tickCat dt).catX
            (g.tickCat dt).catY g.boxes).2
          gameOver := true }
      else
        Game.spawn { g.tickCat dt with
          boxes := (sweep (dt * (20 + (g.totalTime + dt) / 1000)) (g.tickCat dt).catX
            (g.tickCat dt).catY g.boxes).2 } dt r1 r2 := by
  have hm := moveBoxes_eq_sweep (g.tickCat dt) dt
  rw [tickCat_boxes, tickCat_totalTime] at hm
  unfold Game.update
  rw [if_neg (by simp [h])]
  change (match Game.moveBoxes (g.tickCat dt) dt with
    | (true, boxes) => { g.tickCat dt with boxes := boxes, gameOver := true }
    | (false, boxes) => Game.spawn { g.tickCat dt with boxes := boxes } dt r1 r2) = _
  rw [hm]
  generalize sweep (dt * (20 + (g.totalTime + dt) / 1000)) (g.tickCat dt).catX
    (g.tickCat dt).catY g.boxes = sw
  obtain ⟨c, bs⟩ := sw
  cases c <;> simp

/-- In a running game, the flag after the tick is the result of the pass. -/
theorem update_gameOver_eq (g : Game) (dt : Rat) (r1 r2 : Nat) (h : g.gameOver = false) :
    (g.update dt r1 r2).gameOver =
      (sweep (dt * (20 + (g.totalTime + dt) / 1000)) (g.tickCat dt).catX
        (g.tickCat dt).catY g.boxes).1 := by
  rw [update_playing g dt r1 r2 h]
  split_ifs with hs
  · simp [hs]
  · rw [(spawn_frame _ dt r1 r2).2.2.2.2.2.2.2.1]
    simp only [tickCat_gameOver, h]
    simpa using hs

/-- In a running game the tick leaves the cat as the three steps on it made it. -/
theorem update_cat (g : Game) (dt : Rat) (r1 r2 : Nat) (h : g.gameOver = false) :
    (g.update dt r1 r2).catX = (g.tickCat dt).catX ∧
    (g.update dt r1 r2).catY = (g.tickCat dt).catY := by
  rw [update_playing g dt r1 r2 h]
  split_ifs with hs
  · exact ⟨rfl, rfl⟩
  · exact ⟨(spawn_frame _ dt r1 r2).1, (spawn_frame _ dt r1 r2).2.2.2.2.1⟩

/-! ## Sequences of calls -/

theorem run_nil (g : Game) : run g [] = g := rfl

theorem run_append_singleton (g : Game) (cmds : List Command) (c : Command) :
    run g (cmds ++ [c]) = c.exec (run g cmds) := by
  simp [run, List.foldl_append]

/-- A property of the start state that every call preserves holds after every
sequence of calls. -/
theorem run_invariant (P : Game → Prop) (hstart : P startState)
    (hstep : ∀ (g : Game) (c : Command), P g → P (c.exec g))
    (g0 : Game) (cmds : List Command) : P (run g0.reset cmds) := by
  induction cmds using List.reverseRecOn with
  | nil => exact hstart
  | append_singleton cmds c ih =>
    rw [run_append_singleton]
    exact hstep _ c ih

/-- The same for sequences whose `update` calls all have a positive `dt`. -/
theorem run_invariant_positive (P : Game → Prop) (hstart : P startState)
    (hstep : ∀ (g : Game) (c : Command), c.positive → P g → P (c.exec g))
    (g0 : Game) (cmds : List Command) (hpos : ∀ c ∈ cmds, c.positive) :
    P (run g0.reset cmds) := by
  induction cmds using List.reverseRecOn with
  | nil => exact hstart
  | append_singleton cmds c ih =>
    rw [run_append_singleton]
    refine hstep _ c (hpos c (by simp)) (ih ?_)
    intro d hd
    exact hpos d (by simp [hd])

theorem update_over (g : Game) (dt : Rat) (r1 r2 : Nat) (h : g.gameOver = true) :
    g.update dt r1 r2
      = { g with catRotation :=
            if g.catRotation + dt * 500 > 90 then 90 else g.catRotation + dt * 500 } := by
  unfold Game.update
  rw [if_pos h]

/-- The lanes after a tick of a running game. -/
theorem update_lanes (g : Game) (dt : Rat) (r1 r2 : Nat) (h : g.gameOver = false) :
    ((g.update dt r1 r2).catX = g.catX ∨ (g.update dt r1 r2).catX = g.targetCatX) ∧
    (g.update dt r1 r2).targetCatX = g.targetCatX := by
  have hx : (g.tickCat dt).catX = g.catX ∨ (g.tickCat dt).catX = g.targetCatX := by
    unfold Game.tickCat Game.tickMove Game.tickJump Game.tickClock
    dsimp only
    split_ifs <;> simp
  have ht := tickCat_targetCatX g dt
  rw [update_playing g dt r1 r2 h]
  split_ifs with hs
  · exact ⟨hx, ht⟩
  · exact ⟨by rw [(spawn_frame _ dt r1 r2).1]; exact hx,
      by rw [(spawn_frame _ dt r1 r2).2.1]; exact ht⟩

/-! ## The clock and the score -/

theorem truncate_of_nonneg (q : Rat) (h : 0 ≤ q) : truncate q = ⌊q⌋ := by
  unfold truncate
  rw [if_pos h]

/-- As long as `t / 10` fits into an `int`, the stored score is its floor. -/
theorem toUnsigned_truncate_of_bounded (t : Rat) (h0 : 0 ≤ t) (h1 : t < 21474836480) :
    ((toUnsigned (truncate (t / 10)) : Nat) : Int) = ⌊t / 10⌋ := by
  have hq : (0 : Rat) ≤ t / 10 := div_nonneg h0 (by norm_num)
  rw [truncate_of_nonneg _ hq]
  have hf0 : 0 ≤ ⌊t / 10⌋ := Int.floor_nonneg.mpr hq
  have hf1 : ⌊t / 10⌋ < 4294967296 := by
    rw [Int.floor_lt]
    have : t / 10 < 2147483648 := by linarith
    push_cast
    linarith
  unfold toUnsigned
  rw [Int.emod_eq_of_lt hf0 hf1]
  exact Int.toNat_of_nonneg hf0

/-- The clock and the score after a tick of a running game. -/
theorem update_clock (g : Game) (dt : Rat) (r1 r2 : Nat) (h : g.gameOver = false) :
    (g.update dt r1 r2).totalTime = g.totalTime + dt ∧
    (g.update dt r1 r2).score = toUnsigned (truncate ((g.totalTime + dt) / 10)) := by
  rw [update_playing g dt r1 r2 h]
  split_ifs with hs
  · exact ⟨tickCat_totalTime g dt, tickCat_score g dt⟩
  · rw [(spawn_frame _ dt r1 r2).2.2.2.2.2.2.2.2.1, (spawn_frame _ dt r1 r2).2.2.2.2.2.2.1]
    exact ⟨tickCat_totalTime g dt, tickCat_score g dt⟩

theorem clockInv_start : clockInv startState := by
  refine ⟨le_refl _, ?_⟩
  simp [startState, truncate, toUnsigned]

theorem clockInv_exec (g : Game) (c : Command) (hc : c.positive) (hg : clockInv g) :
    clockInv (c.exec g) := by
  cases c with
  | goLeft =>
    simp only [Command.exec, Game.goLeft]
    split_ifs <;> exact hg
  | goRight =>
    simp only [Command.exec, Game.goRight]
    split_ifs <;> exact hg
  | jump =>
    simp only [Command.exec, Game.jump]
    split_ifs
    · exact clockInv_start
    · exact hg
    · exact hg
  | update dt r1 r2 =>
    simp only [Command.exec]
    have hdt : 0 < dt := hc
    cases hover : g.gameOver with
    | true =>
      rw [update_over g dt r1 r2 hover]
      exact hg
    | false =>
      obtain ⟨h1, h2⟩ := update_clock g dt r1 r2 hover
      unfold clockInv
      rw [h1, h2]
      exact ⟨by have := hg.1; linarith, rfl⟩

theorem clockInv_run (g0 : Game) (cmds : List Command) (hpos : ∀ c ∈ cmds, c.positive) :
    clockInv (run g0.reset cmds) :=
  run_invariant_positive clockInv clockInv_start clockInv_exec g0 cmds hpos

/-! ## Jumping -/

theorem tickJump_jumpInv (g : Game) (dt : Rat) (hg : jumpInv g) : jumpInv (g.tickJump dt) := by
  unfold Game.tickJump
  dsimp only
  split_ifs with hj hy
  · exact ⟨le_refl _, fun _ => ⟨rfl, rfl⟩⟩
  · refine ⟨not_lt.mp hy, fun hf => ?_⟩
    rw [hj] at hf
    exact absurd hf (by decide)
  · exact hg

theorem tickCat_jump (g : Game) (dt : Rat) :
    (g.tickCat dt).jumping = (g.tickJump dt).jumping ∧
    (g.tickCat dt).catY = (g.tickJump dt).catY ∧
    (g.tickCat dt).catvY = (g.tickJump dt).catvY := by
  unfold Game.tickCat Game.tickMove Game.tickJump Game.tickClock
  dsimp only
  split_ifs <;> exact ⟨rfl, rfl, rfl⟩

/-- The jump members after a tick of a running game are those after the
gravity step. -/
theorem update_jump (g : Game) (dt : Rat) (r1 r2 : Nat) (h : g.gameOver = false) :
    (g.update dt r1 r2).jumping = (g.tickJump dt).jumping ∧
    (g.update dt r1 r2).catY = (g.tickJump dt).catY ∧
    (g.update dt r1 r2).catvY = (g.tickJump dt).catvY := by
  rw [update_playing g dt r1 r2 h]
  split_ifs with hs
  · exact tickCat_jump g dt
  · rw [(spawn_frame _ dt r1 r2).2.2.2.1, (spawn_frame _ dt r1 r2).2.2.2.2.1,
      (spawn_frame _ dt r1 r2).2.2.2.2.2.1]
    exact tickCat_jump g dt

theorem jumpInv_exec (g : Game) (c : Command) (hg : jumpInv g) : jumpInv (c.exec g) := by
  cases c with
  | goLeft =>
    simp only [Command.exec, Game.goLeft]
    split_ifs <;> exact hg
  | goRight =>
    simp only [Command.exec, Game.goRight]
    split_ifs <;> exact hg
  | jump =>
    simp only [Command.exec, Game.jump]
    split_ifs
    · exact ⟨le_refl _, fun _ => ⟨rfl, rfl⟩⟩
    · exact hg
    · exact ⟨hg.1, fun hf => Bool.noConfusion hf⟩
  | update dt r1 r2 =>
    simp only [Command.exec]
    cases hover : g.gameOver with
    | true =>
      rw [update_over g dt r1 r2 hover]
      exact hg
    | false =>
      obtain ⟨h1, h2, h3⟩ := update_jump g dt r1 r2 hover
      have ht := tickJump_jumpInv g dt hg
      unfold jumpInv at ht ⊢
      rw [h1, h2, h3]
      exact ht

/-! ## The boxes after a tick without collision -/

theorem update_no_collision (g : Game) (dt : Rat) (r1 r2 : Nat) (h : g.gameOver = false)
    (hno : (g.update dt r1 r2).gameOver = false) :
    g.update dt r1 r2 =
      Game.spawn { g.tickCat dt with
        boxes := g.boxes.map (Box.advance (dt * (20 + (g.totalTime + dt) / 1000))) }
        dt r1 r2 := by
  have hs := update_gameOver_eq g dt r1 r2 h
  rw [hno] at hs
  have hmap := sweep_snd_of_not_hit _ _ _ _ hs.symm
  rw [update_playing g dt r1 r2 h, if_neg (by rw [← hs]; decide), hmap]

/-! ## What the pass over the boxes leaves in the sequence -/

theorem sweep_length (inc : Rat) (catX : Int) (catY : Rat) (boxes : List Box) :
    (sweep inc catX catY boxes).2.length = boxes.length := by
  induction boxes with
  | nil => simp [sweep]
  | cons b0 rest ih =>
    by_cases hb : (b0.advance inc).hits catX catY
    · simp [sweep, hb]
    · simp [sweep, hb, ih]

/-- At every index the pass leaves the box it found there or that box advanced;
the lane is the same in both cases. -/
theorem sweep_getElem? (inc : Rat) (catX : Int) (catY : Rat) (boxes : List Box) :
    ∀ i : Nat, (sweep inc catX catY boxes).2[i]? = boxes[i]? ∨
      (sweep inc catX catY boxes).2[i]? = (boxes[i]?).map (Box.advance inc) := by
  induction boxes with
  | nil => intro i; simp [sweep]
  | cons b0 rest ih =>
    intro i
    by_cases hb : (b0.advance inc).hits catX catY
    · left; simp [sweep, hb]
    · cases i with
      | zero => right; simp [sweep, hb]
      | succ j =>
        rcases ih j with h | h
        · left; simpa [sweep, hb] using h
        · right; simpa [sweep, hb] using h

/-- When the pass signals a collision, the sequence splits at the first box that
collides: the boxes in front of it are stored advanced, that box and the boxes
behind it are stored as they were. -/
theorem sweep_hit_split (inc : Rat) (catX : Int) (catY : Rat) (boxes : List Box)
    (h : (sweep inc catX catY boxes).1 = true) :
    ∃ (front : List Box) (b : Box) (back : List Box),
      boxes = front ++ b :: back ∧
      (∀ c ∈ front, ¬ (c.advance inc).hits catX catY) ∧
      (b.advance inc).hits catX catY ∧
      (sweep inc catX catY boxes).2 = front.map (Box.advance inc) ++ b :: back := by
  induction boxes with
  | nil => simp [sweep] at h
  | cons b0 rest ih =>
    by_cases hb : (b0.advance inc).hits catX catY
    · exact ⟨[], b0, rest, rfl, by simp, hb, by simp [sweep, hb]⟩
    · have hrest : (sweep inc catX catY rest).1 = true := by simpa [sweep, hb] using h
      obtain ⟨front, b, back, h1, h2, h3, h4⟩ := ih hrest
      refine ⟨b0 :: front, b, back, by simp [h1], ?_, h3, ?_⟩
      · intro c hc
        rcases List.mem_cons.mp hc with hc | hc
        · rw [hc]; exact hb
        · exact h2 c hc
      · simp [sweep, hb, h4]

/-- A tick of a running game that signals a collision: the steps on the cat, the
boxes as the pass left them, and the flag. -/
theorem update_collision (g : Game) (dt : Rat) (r1 r2 : Nat) (h : g.gameOver = false)
    (hc : (g.update dt r1 r2).gameOver = true) :
    g.update dt r1 r2 =
      { g.tickCat dt with
        boxes := (sweep (dt * (20 + (g.totalTime + dt) / 1000)) (g.tickCat dt).catX
          (g.tickCat dt).catY g.boxes).2
        gameOver := true } := by
  have hs := update_gameOver_eq g dt r1 r2 h
  rw [hc] at hs
  rw [update_playing g dt r1 r2 h, if_pos hs.symm]

/-- The boxes after a tick of a running game: what the pass left, with or
without the new box behind them. -/
theorem update_boxes_cases (g : Game) (dt : Rat) (r1 r2 : Nat) (h : g.gameOver = false) :
    (g.update dt r1 r2).boxes =
        (sweep (dt * (20 + (g.totalTime + dt) / 1000)) (g.tickCat dt).catX
          (g.tickCat dt).catY g.boxes).2 ∨
    (g.update dt r1 r2).boxes =
        (sweep (dt * (20 + (g.totalTime + dt) / 1000)) (g.tickCat dt).catX
          (g.tickCat dt).catY g.boxes).2 ++ [{ x := ((r2 % 3 : Nat) : Int) - 1, z := -100 }] := by
  rw [update_playing g dt r1 r2 h]
  split_ifs with hs
  · left; rfl
  · unfold Game.spawn
    dsimp only
    by_cases hsp : (g.tickCat dt).spawnTime - dt < 0
    · right; rw [if_pos hsp]
    · left; rw [if_neg hsp]

/-- In a running game every box keeps its index over a tick, and is stored
either as it was or advanced. -/
theorem update_getElem? (g : Game) (dt : Rat) (r1 r2 : Nat) (h : g.gameOver = false)
    (i : Nat) (hi : i < g.boxes.length) :
    (g.update dt r1 r2).boxes[i]? = g.boxes[i]? ∨
    (g.update dt r1 r2).boxes[i]?
      = (g.boxes[i]?).map (Box.advance (dt * (20 + (g.totalTime + dt) / 1000))) := by
  have hlen := sweep_length (dt * (20 + (g.totalTime + dt) / 1000)) (g.tickCat dt).catX
    (g.tickCat dt).catY g.boxes
  have hget := sweep_getElem? (dt * (20 + (g.totalTime + dt) / 1000)) (g.tickCat dt).catX
    (g.tickCat dt).catY g.boxes i
  rcases update_boxes_cases g dt r1 r2 h with hb | hb
  · rw [hb]; exact hget
  · rw [hb, List.getElem?_append_left (by rw [hlen]; exact hi)]
    exact hget

theorem update_length (g : Game) (dt : Rat) (r1 r2 : Nat) (h : g.gameOver = false) :
    (g.update dt r1 r2).boxes.length = g.boxes.length ∨
    (g.update dt r1 r2).boxes.length = g.boxes.length + 1 := by
  have hlen := sweep_length (dt * (20 + (g.totalTime + dt) / 1000)) (g.tickCat dt).catX
    (g.tickCat dt).catY g.boxes
  rcases update_boxes_cases g dt r1 r2 h with hb | hb
  · left; rw [hb, hlen]
  · right; rw [hb, List.length_append, hlen]; rfl

/-! ## The lateral movement and the rotation -/

theorem tickCat_move (g : Game) (dt : Rat) :
    (g.tickCat dt).catX = (g.tickMove dt).catX ∧
    (g.tickCat dt).interpolator = (g.tickMove dt).interpolator := by
  unfold Game.tickCat Game.tickMove Game.tickJump Game.tickClock
  dsimp only
  split_ifs <;> exact ⟨rfl, rfl⟩

/-- The lateral members after a tick of a running game are those after the
movement step. -/
theorem update_move (g : Game) (dt : Rat) (r1 r2 : Nat) (h : g.gameOver = false) :
    (g.update dt r1 r2).catX = (g.tickMove dt).catX ∧
    (g.update dt r1 r2).interpolator = (g.tickMove dt).interpolator ∧
    (g.update dt r1 r2).targetCatX = g.targetCatX := by
  have hm := tickCat_move g dt
  have ht := tickCat_targetCatX g dt
  rw [update_playing g dt r1 r2 h]
  split_ifs with hs
  · exact ⟨hm.1, hm.2, ht⟩
  · rw [(spawn_frame _ dt r1 r2).1, (spawn_frame _ dt r1 r2).2.1,
      (spawn_frame _ dt r1 r2).2.2.1]
    exact ⟨hm.1, hm.2, ht⟩

theorem update_catRotation (g : Game) (dt : Rat) (r1 r2 : Nat) (h : g.gameOver = false) :
    (g.update dt r1 r2).catRotation = g.catRotation := by
  rw [update_playing g dt r1 r2 h]
  split_ifs with hs
  · exact tickCat_catRotation g dt
  · rw [(spawn_frame _ dt r1 r2).2.2.2.2.2.2.2.2.2]
    exact tickCat_catRotation g dt

theorem tickMove_targetCatX (g : Game) (dt : Rat) :
    (g.tickMove dt).targetCatX = g.targetCatX := by
  unfold Game.tickMove
  dsimp only
  split_ifs <;> rfl

theorem tickMove_moveInv (g : Game) (dt : Rat) (hdt : 0 < dt) (hg : moveInv g) :
    moveInv (g.tickMove dt) := by
  obtain ⟨hx, ht, hd, h0, h1, he⟩ := hg
  unfold Game.tickMove
  dsimp only
  split_ifs with hne hge
  · exact ⟨ht, ht, ⟨by simp, by simp⟩, le_refl _, by norm_num, fun _ => rfl⟩
  · refine ⟨hx, ht, hd, ?_, not_le.mp hge, fun heq => absurd heq hne⟩
    have : 0 < dt * 20 := by positivity
    dsimp only
    linarith
  · exact ⟨hx, ht, hd, h0, h1, he⟩

theorem moveInv_start : moveInv startState := by
  refine ⟨by decide, by decide, by decide, le_refl _, ?_, fun _ => rfl⟩
  simp [startState]

theorem moveInv_exec (g : Game) (c : Command) (hc : c.positive) (hg : moveInv g) :
    moveInv (c.exec g) := by
  cases c with
  | goLeft =>
    simp only [Command.exec, Game.goLeft]
    split_ifs with hcond
    · obtain ⟨hx, ht, _, h0, h1, he⟩ := hg
      refine ⟨hx, ?_, ⟨?_, ?_⟩, h0, h1, ?_⟩
      · unfold isLane at ht ⊢
        have := hcond.2
        dsimp only
        omega
      · have := hcond.1
        dsimp only
        omega
      · have := hcond.1
        dsimp only
        omega
      · intro _
        exact he hcond.1.symm
    · exact hg
  | goRight =>
    simp only [Command.exec, Game.goRight]
    split_ifs with hcond
    · obtain ⟨hx, ht, _, h0, h1, he⟩ := hg
      refine ⟨hx, ?_, ⟨?_, ?_⟩, h0, h1, ?_⟩
      · unfold isLane at ht ⊢
        have := hcond.2
        dsimp only
        omega
      · have := hcond.1
        dsimp only
        omega
      · have := hcond.1
        dsimp only
        omega
      · intro _
        exact he hcond.1.symm
    · exact hg
  | jump =>
    simp only [Command.exec, Game.jump]
    split_ifs
    · exact moveInv_start
    · exact hg
    · exact hg
  | update dt r1 r2 =>
    simp only [Command.exec]
    have hdt : 0 < dt := hc
    cases hover : g.gameOver with
    | true =>
      rw [update_over g dt r1 r2 hover]
      exact hg
    | false =>
      obtain ⟨h1, h2, h3⟩ := update_move g dt r1 r2 hover
      have hm := tickMove_moveInv g dt hdt hg
      rw [← tickMove_targetCatX g dt] at h3
      unfold moveInv at hm ⊢
      rw [h1, h2, h3]
      exact hm

theorem rotInv_start : rotInv startState :=
  ⟨le_refl _, by simp [startState], fun _ => rfl⟩

theorem rotInv_exec (g : Game) (c : Command) (hc : c.positive) (hg : rotInv g) :
    rotInv (c.exec g) := by
  cases c with
  | goLeft =>
    simp only [Command.exec, Game.goLeft]
    split_ifs <;> exact hg
  | goRight =>
    simp only [Command.exec, Game.goRight]
    split_ifs <;> exact hg
  | jump =>
    simp only [Command.exec, Game.jump]
    split_ifs
    · exact rotInv_start
    · exact hg
    · exact hg
  | update dt r1 r2 =>
    simp only [Command.exec]
    have hdt : 0 < dt := hc
    cases hover : g.gameOver with
    | true =>
      rw [update_over g dt r1 r2 hover]
      obtain ⟨h0, _, _⟩ := hg
      have hp : 0 < dt * 500 := by positivity
      unfold rotInv
      dsimp only
      refine ⟨?_, ?_, fun hf => ?_⟩
      · split_ifs
        · norm_num
        · linarith
      · split_ifs with hgt
        · exact le_refl _
        · exact not_lt.mp hgt
      · rw [hover] at hf
        exact Bool.noConfusion hf
    | false =>
      have hr := update_catRotation g dt r1 r2 hover
      have h0 := hg.2.2 hover
      unfold rotInv
      rw [hr, h0]
      exact ⟨le_refl _, by norm_num, fun _ => rfl⟩

/-! ## The claims -/

/-- C1: in a running game, `update dt` sets `gameOver` exactly when some box,
with its depth advanced by `dt * (20 + totalTime / 1000)` (`totalTime` already
increased by `dt`), lies strictly between `-10.5` and `-9.5`, is in the lane of
the cat and the cat is lower than `1.0`, lane and height being those after the
movement and gravity steps of this tick (which are also those of the state
after the tick). -/
theorem C1_collision_iff (g : Game) (dt : Rat) (r1 r2 : Nat) (h : g.gameOver = false) :
    ((g.update dt r1 r2).gameOver = true ↔
      ∃ b ∈ g.boxes,
        (-10.5 < b.z + dt * (20 + (g.totalTime + dt) / 1000) ∧
          b.z + dt * (20 + (g.totalTime + dt) / 1000) < -9.5) ∧
        b.x = (g.tickCat dt).catX ∧ (g.tickCat dt).catY < 1) ∧
    (g.update dt r1 r2).catX = (g.tickCat dt).catX ∧
    (g.update dt r1 r2).catY = (g.tickCat dt).catY := by
  refine ⟨?_, update_cat g dt r1 r2 h⟩
  rw [update_gameOver_eq g dt r1 r2 h, sweep_fst_iff]
  simp only [Box.hits, Box.advance, gt_iff_lt]

/-- C1, scenario C: a box in lane 0 at depth `-10.6`, the cat on the ground in
lane 0; one tick of `1/60` brings the box into the band and ends the game. -/
theorem C1_collision_iff_witness :
    scenarioC.gameOver = false ∧ (scenarioC.update (1 / 60) 0 0).gameOver = true :=
  ⟨rfl, (C1_collision_iff scenarioC (1 / 60) 0 0 rfl).1.2
    ⟨{ x := 0, z := -10.6 }, by simp [scenarioC], by decide!⟩⟩

/-- C2: once the game is over, `update dt` changes `catRotation` only, to
`min (catRotation + 500 * dt) 90`; every other member, the boxes included,
keeps its value.  This holds for every `dt`, so for every `dt > 0`. -/
theorem C2_game_over_freeze (g : Game) (dt : Rat) (r1 r2 : Nat)
    (h : g.gameOver = true) :
    g.update dt r1 r2 = { g with catRotation := min (g.catRotation + 500 * dt) 90 } := by
  unfold Game.update
  rw [if_pos h]
  have hcomm : g.catRotation + dt * 500 = g.catRotation + 500 * dt := by ring
  by_cases hr : g.catRotation + dt * 500 > 90
  · have hmin : min (g.catRotation + 500 * dt) 90 = 90 :=
      min_eq_right (by rw [← hcomm]; exact le_of_lt hr)
    simp only [hr, if_true, hmin]
  · have hmin : min (g.catRotation + 500 * dt) 90 = g.catRotation + dt * 500 := by
      rw [← hcomm]; exact min_eq_left (not_lt.mp hr)
    simp only [hr, if_false, hmin]

/-- C2 at a game that is over with the cat tilted by 45 degrees: a tick of
`1/60` tilts it to `45 + 500/60` and a tick of `1` to the bound `90`. -/
theorem C2_game_over_freeze_witness :
    fallenGame.gameOver = true ∧
      fallenGame.update (1 / 60) 3 4
        = { fallenGame with catRotation := min (fallenGame.catRotation + 500 * (1 / 60)) 90 } :=
  ⟨rfl, C2_game_over_freeze fallenGame (1 / 60) 3 4 rfl⟩

/-- C3: when the game is over, `jump` gives the start state, which is the state
`reset` gives from every state: not over, score 0, spawn time 0.5, not jumping,
height and vertical speed 0, both lanes 0, interpolator 0, total time 0,
rotation 0 and no boxes; so the box count and the score read 0. -/
theorem C3_jump_restarts (g : Game) (h : g.gameOver = true) :
    g.jump = startState ∧ (∀ g0 : Game, g0.reset = startState) ∧
    startState =
      { boxes := [], catX := 0, targetCatX := 0, interpolator := 0, jumping := false,
        catY := 0, catvY := 0, score := 0, gameOver := false, spawnTime := 0.5,
        totalTime := 0, catRotation := 0 } ∧
    g.jump.getBoxCount = 0 ∧ g.jump.getScore = 0 := by
  have hreset : ∀ g0 : Game, g0.reset = startState := fun g0 => rfl
  have hj : g.jump = startState := by
    unfold Game.jump
    rw [if_pos h]
    exact hreset g
  refine ⟨hj, hreset, rfl, ?_, ?_⟩
  · rw [hj]; rfl
  · rw [hj]; rfl

/-- C3 at a game that is over with score 7 and a box on the track. -/
theorem C3_jump_restarts_witness :
    fallenGame.gameOver = true ∧ fallenGame.jump = startState ∧
      fallenGame.jump.getBoxCount = 0 ∧ fallenGame.jump.getScore = 0 :=
  ⟨rfl, (C3_jump_restarts fallenGame rfl).1, (C3_jump_restarts fallenGame rfl).2.2.2.1,
    (C3_jump_restarts fallenGame rfl).2.2.2.2⟩

/-- C4: after every finite sequence of `goLeft`, `goRight`, `jump` and
`update dt` calls (any `dt`, any random draws) on a reset game, `catX` and
`targetCatX` are both one of `-1`, `0`, `1`. -/
theorem C4_lanes_bounded (g0 : Game) (cmds : List Command) :
    ((run g0.reset cmds).catX = -1 ∨ (run g0.reset cmds).catX = 0 ∨
      (run g0.reset cmds).catX = 1) ∧
    ((run g0.reset cmds).targetCatX = -1 ∨ (run g0.reset cmds).targetCatX = 0 ∨
      (run g0.reset cmds).targetCatX = 1) := by
  refine run_invariant (fun g => isLane g.catX ∧ isLane g.targetCatX) ?_ ?_ g0 cmds
  · simp [isLane, startState]
  · intro g c hg
    obtain ⟨hx, ht⟩ := hg
    cases c with
    | goLeft =>
      simp only [Command.exec, Game.goLeft]
      split_ifs with hc
      · refine ⟨hx, ?_⟩
        unfold isLane at ht ⊢
        have := hc.2
        dsimp only
        omega
      · exact ⟨hx, ht⟩
    | goRight =>
      simp only [Command.exec, Game.goRight]
      split_ifs with hc
      · refine ⟨hx, ?_⟩
        unfold isLane at ht ⊢
        have := hc.2
        dsimp only
        omega
      · exact ⟨hx, ht⟩
    | jump =>
      simp only [Command.exec, Game.jump]
      split_ifs
      · simp [isLane, Game.reset]
      · exact ⟨hx, ht⟩
      · exact ⟨hx, ht⟩
    | update dt r1 r2 =>
      simp only [Command.exec]
      cases hover : g.gameOver with
      | true =>
        rw [update_over g dt r1 r2 hover]
        exact ⟨hx, ht⟩
      | false =>
        obtain ⟨h1, h2⟩ := update_lanes g dt r1 r2 hover
        rw [h2]
        refine ⟨?_, ht⟩
        rcases h1 with h1 | h1 <;> rw [h1] <;> assumption

/-- C5: when `goLeft` changes `targetCatX`, a `goRight` right after it changes
nothing; when `goRight` changes `targetCatX`, a `goLeft` right after it changes
nothing; and in every state with `catX` different from `targetCatX` both
`goLeft` and `goRight` leave the whole state as it is. -/
theorem C5_no_redirect (g : Game) :
    (g.goLeft.targetCatX ≠ g.targetCatX → g.goLeft.goRight = g.goLeft) ∧
    (g.goRight.targetCatX ≠ g.targetCatX → g.goRight.goLeft = g.goRight) ∧
    (g.catX ≠ g.targetCatX → g.goLeft = g ∧ g.goRight = g) := by
  refine ⟨?_, ?_, ?_⟩
  · intro hch
    by_cases hc : g.targetCatX = g.catX ∧ g.targetCatX ≥ 0
    · have hl : g.goLeft = { g with targetCatX := g.targetCatX - 1 } := by
        unfold Game.goLeft; rw [if_pos hc]
      rw [hl]
      unfold Game.goRight
      rw [if_neg]
      dsimp only
      intro hcon
      have := hc.1
      omega
    · have hl : g.goLeft = g := by unfold Game.goLeft; rw [if_neg hc]
      rw [hl] at hch
      exact absurd rfl hch
  · intro hch
    by_cases hc : g.targetCatX = g.catX ∧ g.targetCatX ≤ 0
    · have hr : g.goRight = { g with targetCatX := g.targetCatX + 1 } := by
        unfold Game.goRight; rw [if_pos hc]
      rw [hr]
      unfold Game.goLeft
      rw [if_neg]
      dsimp only
      intro hcon
      have := hc.1
      omega
    · have hr : g.goRight = g := by unfold Game.goRight; rw [if_neg hc]
      rw [hr] at hch
      exact absurd rfl hch
  · intro hne
    have hne2 : ¬ g.targetCatX = g.catX := fun he => hne he.symm
    constructor
    · unfold Game.goLeft; rw [if_neg (fun hc => hne2 hc.1)]
    · unfold Game.goRight; rw [if_neg (fun hc => hne2 hc.1)]

/-- C5 on the start state, where `goLeft` and `goRight` both take effect, and
on the state after `goLeft`, where the cat is between two lanes. -/
theorem C5_no_redirect_witness :
    (startState.goLeft.targetCatX ≠ startState.targetCatX ∧
      startState.goLeft.goRight = startState.goLeft) ∧
    (startState.goRight.targetCatX ≠ startState.targetCatX ∧
      startState.goRight.goLeft = startState.goRight) ∧
    (startState.goLeft.catX ≠ startState.goLeft.targetCatX ∧
      startState.goLeft.goLeft = startState.goLeft ∧
      startState.goLeft.goRight = startState.goLeft) :=
  ⟨⟨by decide, (C5_no_redirect startState).1 (by decide)⟩,
    ⟨by decide, (C5_no_redirect startState).2.1 (by decide)⟩,
    ⟨by decide, (C5_no_redirect startState.goLeft).2.2 (by decide)⟩⟩

/-- C6, as the claim states it, fails twice.  After one tick of 42949672960
seconds on a reset game the floor of `totalTime / 10` is `2^32`, which no
32 bit `unsigned` holds, and `getScore` differs from it.  And in a running
game whose members are score 5 and clock 0 (not a state that calls on a reset
game lead to), a tick of one second lowers the score. -/
theorem C6_score_counterexample :
    ((∀ c ∈ longTick, c.positive) ∧
      (4294967296 : Int) ≤ ⌊(run (Game.reset startState) longTick).totalTime / 10⌋ ∧
      (run (Game.reset startState) longTick).getScore < 4294967296 ∧
      (((run (Game.reset startState) longTick).getScore : Nat) : Int)
        ≠ ⌊(run (Game.reset startState) longTick).totalTime / 10⌋) ∧
    (staleScore.gameOver = false ∧ (0 : Rat) < 1 ∧
      (staleScore.update 1 0 0).getScore < staleScore.getScore) := by
  refine ⟨⟨?_, ?_, ?_, ?_⟩, rfl, ?_, ?_⟩
  · simp [longTick, Command.positive]
  · decide!
  · decide!
  · decide!
  · norm_num
  · decide!

/-- C6, amended: after every sequence of calls on a reset game whose `update`
calls have a positive `dt`, while `totalTime / 10` fits into an `int`
(`totalTime < 21474836480`) the score is the floor of `totalTime / 10`; from
such a state, when the game is running, a tick with `dt > 0` that keeps
`totalTime` below that bound does not lower the score; and `update 10` on a
new game gives score 1. -/
theorem C6_score_floor (g0 : Game) (cmds : List Command) (hpos : ∀ c ∈ cmds, c.positive) :
    ((run g0.reset cmds).totalTime < 21474836480 →
      (((run g0.reset cmds).getScore : Nat) : Int) = ⌊(run g0.reset cmds).totalTime / 10⌋) ∧
    (∀ (dt : Rat) (r1 r2 : Nat), (run g0.reset cmds).gameOver = false → 0 < dt →
      (run g0.reset cmds).totalTime + dt < 21474836480 →
      (run g0.reset cmds).getScore ≤ ((run g0.reset cmds).update dt r1 r2).getScore) ∧
    (∀ r1 r2 : Nat, ((Game.new g0).update 10 r1 r2).getScore = 1) := by
  obtain ⟨h0, hs⟩ := clockInv_run g0 cmds hpos
  refine ⟨?_, ?_, ?_⟩
  · intro hb
    unfold Game.getScore
    rw [hs]
    exact toUnsigned_truncate_of_bounded _ h0 hb
  · intro dt r1 r2 hover hdt hb
    obtain ⟨_, h2⟩ := update_clock (run g0.reset cmds) dt r1 r2 hover
    unfold Game.getScore
    have ha := toUnsigned_truncate_of_bounded (run g0.reset cmds).totalTime h0 (by linarith)
    have hb2 := toUnsigned_truncate_of_bounded ((run g0.reset cmds).totalTime + dt)
      (by linarith) hb
    have hmono : ⌊(run g0.reset cmds).totalTime / 10⌋
        ≤ ⌊((run g0.reset cmds).totalTime + dt) / 10⌋ :=
      Int.floor_le_floor (by linarith)
    rw [h2, hs]
    have : ((toUnsigned (truncate ((run g0.reset cmds).totalTime / 10)) : Nat) : Int)
        ≤ ((toUnsigned (truncate (((run g0.reset cmds).totalTime + dt) / 10)) : Nat) : Int) := by
      rw [ha, hb2]; exact hmono
    exact_mod_cast this
  · intro r1 r2
    have hnew : Game.new g0 = startState := rfl
    obtain ⟨_, h2⟩ := update_clock startState 10 r1 r2 rfl
    unfold Game.getScore
    rw [hnew, h2]
    decide!

/-- C6, amended, on a run of three ticks: the clock is at `35 + 1/60` and both
the score and the floor are 3. -/
theorem C6_score_floor_witness :
    (∀ c ∈ sampleRun, c.positive) ∧
    (run (Game.reset startState) sampleRun).totalTime < 21474836480 ∧
    (((run (Game.reset startState) sampleRun).getScore : Nat) : Int)
      = ⌊(run (Game.reset startState) sampleRun).totalTime / 10⌋ ∧
    (run (Game.reset startState) sampleRun).getScore = 3 ∧
    (run (Game.reset startState) sampleRun).getScore
      ≤ ((run (Game.reset startState) sampleRun).update 30 0 0).getScore :=
  ⟨by simp [sampleRun, Command.positive],
    by decide!,
    (C6_score_floor startState sampleRun (by simp [sampleRun, Command.positive])).1 (by decide!),
    by decide!,
    (C6_score_floor startState sampleRun (by simp [sampleRun, Command.positive])).2.1 30 0 0
      (by decide!) (by norm_num) (by decide!)⟩

/-- C7: after every sequence of calls on a reset game (whatever the `dt` of its
`update` calls, so in particular when they are positive), `catY` is not
negative, and when `jumping` is false both `catY` and `catvY` are 0. -/
theorem C7_landing_invariant (g0 : Game) (cmds : List Command) :
    0 ≤ (run g0.reset cmds).catY ∧
    ((run g0.reset cmds).jumping = false →
      (run g0.reset cmds).catY = 0 ∧ (run g0.reset cmds).catvY = 0) :=
  run_invariant jumpInv ⟨le_refl _, fun _ => ⟨rfl, rfl⟩⟩ jumpInv_exec g0 cmds

/-- C7 on a run with a jump followed by a tick long enough to land. -/
theorem C7_landing_invariant_witness :
    (run (Game.reset startState) sampleRun).jumping = false ∧
    (run (Game.reset startState) sampleRun).catY = 0 ∧
    (run (Game.reset startState) sampleRun).catvY = 0 :=
  ⟨by decide!, (C7_landing_invariant startState sampleRun).2 (by decide!)⟩

/-- C8, the run on which the code departs from the claim: a new game, a tick of
one second that spawns a box in lane 1 (the cat stays in lane 0), then a tick
of five seconds.  The second tick advances the box from depth `-100` to
`3/100 > 0` and signals no collision, yet the box is still stored at index 0,
in front of the box spawned by that tick: the count is 2, not 1. -/
theorem C8_passed_box_kept :
    (run (Game.new startState) [Command.update 1 0 2]).boxes = [{ x := 1, z := -100 }] ∧
    (run (Game.new startState) passedRun).gameOver = false ∧
    (run (Game.new startState) passedRun).boxes
      = [{ x := 1, z := 3 / 100 }, { x := -1, z := -100 }] ∧
    (run (Game.new startState) passedRun).getBoxCount = 2 ∧
    (Game.getBoxLocation (run (Game.new startState) passedRun) 0).1
      = Except.ok { x := 3, y := -4, z := 3 / 100 } := by
  refine ⟨?_, ?_, ?_, ?_, ?_⟩ <;> decide!

/-- C9: `getBoxLocation index` throws `outOfRange` exactly when `index` is at
least `getBoxCount`; when `index` is smaller it returns `(3 * x, -4, z)` of
the box at that position; in both cases the state is as before the call. -/
theorem C9_box_location (g : Game) (index : Nat) :
    ((g.getBoxLocation index).1 = Except.error GameError.outOfRange ↔
      g.getBoxCount ≤ index) ∧
    (∀ h : index < g.getBoxCount,
      (g.getBoxLocation index).1
        = Except.ok { x := 3 * ((g.boxes.get ⟨index, h⟩).x : Rat), y := -4,
                      z := (g.boxes.get ⟨index, h⟩).z }) ∧
    (g.getBoxLocation index).2 = g := by
  unfold Game.getBoxLocation Game.getBoxCount
  refine ⟨?_, ?_, ?_⟩
  · cases hb : g.boxes[index]? with
    | none =>
      simp only [true_iff]
      exact List.getElem?_eq_none_iff.mp hb
    | some b =>
      have hlt : index < g.boxes.length := by
        by_contra hcon
        rw [List.getElem?_eq_none_iff.mpr (not_lt.mp hcon)] at hb
        exact absurd hb (by simp)
      simp only [reduceCtorEq, false_iff, not_le]
      exact hlt
  · intro h
    rw [List.getElem?_eq_getElem h]
    simp only [List.get_eq_getElem]
    rw [mul_comm]
  · cases g.boxes[index]? <;> rfl

/-- C9 on a game with two boxes: index 1 is answered, index 2 is refused. -/
theorem C9_box_location_witness :
    (1 < twoBoxes.getBoxCount ∧
      (twoBoxes.getBoxLocation 1).1 = Except.ok { x := 3, y := -4, z := -100 }) ∧
    (twoBoxes.getBoxCount ≤ 2 ∧
      (twoBoxes.getBoxLocation 2).1 = Except.error GameError.outOfRange) :=
  ⟨⟨by decide, by
      have h := (C9_box_location twoBoxes 1).2.1 (by decide)
      rw [h]
      decide!⟩,
    ⟨by decide, (C9_box_location twoBoxes 2).1.2 (by decide)⟩⟩

/-- C10: on a tick of a running game that signals no collision, with random
draws `r1` and `r2`: if `spawnTime - dt < 0`, the boxes after the tick are the
advanced old boxes followed by exactly one new box of depth `-100` and lane
`r2 % 3 - 1` (one of `-1`, `0`, `1`), and `spawnTime` becomes
`max 0.3 (0.5 + 2 * U - totalTime / 10000)` with `U = (r1 % 100) / 100` in
`[0, 1)` and `totalTime` the value after the tick, hence at least `0.3`;
otherwise the boxes are the advanced old boxes and `spawnTime` becomes
`spawnTime - dt`. -/
theorem C10_spawn (g : Game) (dt : Rat) (r1 r2 : Nat) (h : g.gameOver = false)
    (hno : (g.update dt r1 r2).gameOver = false) :
    (g.spawnTime - dt < 0 →
      (g.update dt r1 r2).boxes
        = g.boxes.map (Box.advance (dt * (20 + (g.totalTime + dt) / 1000)))
            ++ [{ x := ((r2 % 3 : Nat) : Int) - 1, z := -100 }] ∧
      (g.update dt r1 r2).getBoxCount = g.getBoxCount + 1 ∧
      (g.update dt r1 r2).spawnTime
        = max 0.3 (0.5 + 2 * (((r1 % 100 : Nat) : Rat) / 100)
            - (g.update dt r1 r2).totalTime / 10000) ∧
      (g.update dt r1 r2).totalTime = g.totalTime + dt ∧
      isLane (((r2 % 3 : Nat) : Int) - 1) ∧
      0 ≤ ((r1 % 100 : Nat) : Rat) / 100 ∧ ((r1 % 100 : Nat) : Rat) / 100 < 1 ∧
      0.3 ≤ (g.update dt r1 r2).spawnTime) ∧
    (¬ (g.spawnTime - dt < 0) →
      (g.update dt r1 r2).boxes
        = g.boxes.map (Box.advance (dt * (20 + (g.totalTime + dt) / 1000))) ∧
      (g.update dt r1 r2).getBoxCount = g.getBoxCount ∧
      (g.update dt r1 r2).spawnTime = g.spawnTime - dt) := by
  have htime := (update_clock g dt r1 r2 h).1
  rw [htime]
  rw [update_no_collision g dt r1 r2 h hno]
  unfold Game.spawn Game.getBoxCount
  simp only [tickCat_spawnTime, tickCat_totalTime]
  constructor
  · intro hs
    rw [if_pos hs]
    dsimp only
    have hmax : (if (0.5 : Rat) + ((r1 % 100 : Nat) : Rat) / 100 * 2 - (g.totalTime + dt) / 10000
          < 0.3 then (0.3 : Rat)
        else 0.5 + ((r1 % 100 : Nat) : Rat) / 100 * 2 - (g.totalTime + dt) / 10000)
        = max 0.3 (0.5 + 2 * (((r1 % 100 : Nat) : Rat) / 100) - (g.totalTime + dt) / 10000) := by
      have hc : (0.5 : Rat) + ((r1 % 100 : Nat) : Rat) / 100 * 2
          = 0.5 + 2 * (((r1 % 100 : Nat) : Rat) / 100) := by ring
      rw [hc]
      split_ifs with hlt
      · exact (max_eq_left (le_of_lt hlt)).symm
      · exact (max_eq_right (not_lt.mp hlt)).symm
    have hlt100 : r1 % 100 < 100 := Nat.mod_lt _ (by decide)
    have hlt100q : ((r1 % 100 : Nat) : Rat) < 100 := by exact_mod_cast hlt100
    have hlt3 : r2 % 3 < 3 := Nat.mod_lt _ (by decide)
    refine ⟨rfl, by simp, hmax, trivial, ?_, ?_, ?_, ?_⟩
    · unfold isLane; omega
    · positivity
    · rw [div_lt_one (by norm_num)]; exact hlt100q
    · rw [hmax]; exact le_max_left _ _
  · intro hs
    rw [if_neg hs]
    exact ⟨rfl, by simp, rfl⟩

/-- C10 on the start state: a tick of one second spawns the box of lane
`5 % 3 - 1 = 1` and sets the timer to `0.5 + 2 * 0.42 - 1 / 10000`; a tick
of `1/60` spawns nothing and leaves `0.5 - 1/60` on the timer. -/
theorem C10_spawn_witness :
    (startState.gameOver = false ∧ (startState.update 1 42 5).gameOver = false ∧
      startState.spawnTime - 1 < 0 ∧
      (startState.update 1 42 5).boxes = [{ x := 1, z := -100 }] ∧
      (startState.update 1 42 5).spawnTime = 13399 / 10000) ∧
    (startState.gameOver = false ∧ (startState.update (1 / 60) 42 5).gameOver = false ∧
      ¬ (startState.spawnTime - 1 / 60 < 0) ∧
      (startState.update (1 / 60) 42 5).boxes = [] ∧
      (startState.update (1 / 60) 42 5).spawnTime = 29 / 60) :=
  ⟨⟨rfl, by decide!, by decide!,
      ((C10_spawn startState 1 42 5 rfl (by decide!)).1 (by decide!)).1.trans (by decide!),
      ((C10_spawn startState 1 42 5 rfl (by decide!)).1 (by decide!)).2.2.1.trans (by decide!)⟩,
    ⟨rfl, by decide!, by decide!,
      ((C10_spawn startState (1 / 60) 42 5 rfl (by decide!)).2 (by decide!)).1.trans (by decide!),
      ((C10_spawn startState (1 / 60) 42 5 rfl (by decide!)).2 (by decide!)).2.2.trans
        (by decide!)⟩⟩

/-- C11: `goLeft` lowers `targetCatX` by one exactly when `catX = targetCatX`
and `targetCatX ≥ 0`, and `goRight` raises it by one exactly when
`catX = targetCatX` and `targetCatX ≤ 0`; in every other case the call leaves
the whole state as it is, and in all cases no member other than `targetCatX`
changes. -/
theorem C11_move_commands (g : Game) :
    ((g.goLeft.targetCatX = g.targetCatX - 1 ↔ (g.catX = g.targetCatX ∧ g.targetCatX ≥ 0)) ∧
      (¬ (g.catX = g.targetCatX ∧ g.targetCatX ≥ 0) → g.goLeft = g) ∧
      g.goLeft = { g with targetCatX := g.goLeft.targetCatX }) ∧
    ((g.goRight.targetCatX = g.targetCatX + 1 ↔ (g.catX = g.targetCatX ∧ g.targetCatX ≤ 0)) ∧
      (¬ (g.catX = g.targetCatX ∧ g.targetCatX ≤ 0) → g.goRight = g) ∧
      g.goRight = { g with targetCatX := g.goRight.targetCatX }) := by
  constructor
  · by_cases hc : g.targetCatX = g.catX ∧ g.targetCatX ≥ 0
    · have hl : g.goLeft = { g with targetCatX := g.targetCatX - 1 } := by
        unfold Game.goLeft; rw [if_pos hc]
      refine ⟨?_, ?_, ?_⟩
      · rw [hl]
        exact ⟨fun _ => ⟨hc.1.symm, hc.2⟩, fun _ => rfl⟩
      · intro hn
        exact absurd ⟨hc.1.symm, hc.2⟩ hn
      · rw [hl]
    · have hl : g.goLeft = g := by unfold Game.goLeft; rw [if_neg hc]
      refine ⟨?_, ?_, ?_⟩
      · rw [hl]
        constructor
        · intro he; omega
        · intro hp; exact absurd ⟨hp.1.symm, hp.2⟩ hc
      · intro _; exact hl
      · rw [hl]
  · by_cases hc : g.targetCatX = g.catX ∧ g.targetCatX ≤ 0
    · have hr : g.goRight = { g with targetCatX := g.targetCatX + 1 } := by
        unfold Game.goRight; rw [if_pos hc]
      refine ⟨?_, ?_, ?_⟩
      · rw [hr]
        exact ⟨fun _ => ⟨hc.1.symm, hc.2⟩, fun _ => rfl⟩
      · intro hn
        exact absurd ⟨hc.1.symm, hc.2⟩ hn
      · rw [hr]
    · have hr : g.goRight = g := by unfold Game.goRight; rw [if_neg hc]
      refine ⟨?_, ?_, ?_⟩
      · rw [hr]
        constructor
        · intro he; omega
        · intro hp; exact absurd ⟨hp.1.symm, hp.2⟩ hc
      · intro _; exact hr
      · rw [hr]

/-- C11 on the start state, where both commands take effect, and on a state
with the cat between two lanes, where both do nothing. -/
theorem C11_move_commands_witness :
    ((startState.catX = startState.targetCatX ∧ startState.targetCatX ≥ 0) ∧
      startState.goLeft.targetCatX = startState.targetCatX - 1) ∧
    ((startState.catX = startState.targetCatX ∧ startState.targetCatX ≤ 0) ∧
      startState.goRight.targetCatX = startState.targetCatX + 1) ∧
    (¬ (midMove.catX = midMove.targetCatX ∧ midMove.targetCatX ≥ 0) ∧
      midMove.goLeft = midMove) ∧
    (¬ (midMove.catX = midMove.targetCatX ∧ midMove.targetCatX ≤ 0) ∧
      midMove.goRight = midMove) :=
  ⟨⟨by decide, (C11_move_commands startState).1.1.2 (by decide)⟩,
    ⟨by decide, (C11_move_commands startState).2.1.2 (by decide)⟩,
    ⟨by decide, (C11_move_commands midMove).1.2.1 (by decide)⟩,
    ⟨by decide, (C11_move_commands midMove).2.2.1 (by decide)⟩⟩

/-- C12: in a running game, `jump` on a cat that is not jumping sets `jumping`
and sets `catvY` to 30 and changes no other member (`catY` included); on a cat
that is jumping it leaves the whole state as it is. -/
theorem C12_jump (g : Game) (h : g.gameOver = false) :
    (g.jumping = false → g.jump = { g with jumping := true, catvY := 30 }) ∧
    (g.jumping = true → g.jump = g) := by
  unfold Game.jump
  rw [if_neg (by simp [h])]
  constructor
  · intro hj
    rw [if_pos (by simp [hj])]
  · intro hj
    rw [if_neg (by simp [hj])]

/-- C12 on the start state (the cat on the ground) and on a cat in the air. -/
theorem C12_jump_witness :
    (startState.gameOver = false ∧ startState.jumping = false ∧
      startState.jump = { startState with jumping := true, catvY := 30 }) ∧
    (midMove.gameOver = false ∧ midMove.jumping = true ∧ midMove.jump = midMove) :=
  ⟨⟨rfl, rfl, (C12_jump startState rfl).1 rfl⟩, ⟨rfl, rfl, (C12_jump midMove rfl).2 rfl⟩⟩

/-- C14: on a tick of a running game that signals a collision, the boxes split
at the colliding box (the first one that meets the collision test): every box
behind it is stored with the depth and lane it had before the tick, no box is
added or removed, and `spawnTime` is unchanged, while `totalTime`, `score` and
the jump and lateral members are those after the steps of this tick. -/
theorem C14_collision_frame (g : Game) (dt : Rat) (r1 r2 : Nat) (h : g.gameOver = false)
    (hc : (g.update dt r1 r2).gameOver = true) :
    (∃ (front : List Box) (b : Box) (back : List Box),
      g.boxes = front ++ b :: back ∧
      (∀ c ∈ front, ¬ (c.advance (dt * (20 + (g.totalTime + dt) / 1000))).hits
        (g.tickCat dt).catX (g.tickCat dt).catY) ∧
      (b.advance (dt * (20 + (g.totalTime + dt) / 1000))).hits
        (g.tickCat dt).catX (g.tickCat dt).catY ∧
      (g.update dt r1 r2).boxes.drop (front.length + 1) = back ∧
      (∀ j : Nat, front.length < j → (g.update dt r1 r2).boxes[j]? = g.boxes[j]?)) ∧
    (g.update dt r1 r2).getBoxCount = g.getBoxCount ∧
    (g.update dt r1 r2).boxes.map Box.x = g.boxes.map Box.x ∧
    (g.update dt r1 r2).spawnTime = g.spawnTime ∧
    (g.update dt r1 r2).totalTime = g.totalTime + dt ∧
    (g.update dt r1 r2).score = toUnsigned (truncate ((g.totalTime + dt) / 10)) ∧
    ((g.update dt r1 r2).jumping = (g.tickJump dt).jumping ∧
      (g.update dt r1 r2).catY = (g.tickJump dt).catY ∧
      (g.update dt r1 r2).catvY = (g.tickJump dt).catvY) ∧
    ((g.update dt r1 r2).catX = (g.tickCat dt).catX ∧
      (g.update dt r1 r2).interpolator = (g.tickCat dt).interpolator ∧
      (g.update dt r1 r2).targetCatX = g.targetCatX) := by
  have hs := update_gameOver_eq g dt r1 r2 h
  rw [hc] at hs
  obtain ⟨front, b, back, h1, h2, h3, h4⟩ := sweep_hit_split _ _ _ _ hs.symm
  have hu := update_collision g dt r1 r2 h hc
  have hboxes : (g.update dt r1 r2).boxes
      = front.map (Box.advance (dt * (20 + (g.totalTime + dt) / 1000))) ++ b :: back := by
    rw [hu]; exact h4
  have hclock := update_clock g dt r1 r2 h
  refine ⟨⟨front, b, back, h1, h2, h3, ?_, ?_⟩, ?_, ?_, ?_, hclock.1, hclock.2,
    update_jump g dt r1 r2 h, ?_⟩
  · rw [hboxes]
    have hl : front.length + 1
        = (front.map (Box.advance (dt * (20 + (g.totalTime + dt) / 1000))) ++ [b]).length := by
      simp
    have hsplit : front.map (Box.advance (dt * (20 + (g.totalTime + dt) / 1000))) ++ b :: back
        = (front.map (Box.advance (dt * (20 + (g.totalTime + dt) / 1000))) ++ [b]) ++ back := by
      simp
    rw [hl, hsplit, List.drop_left]
  · intro j hj
    rw [hboxes, h1]
    have hlm : (front.map (Box.advance (dt * (20 + (g.totalTime + dt) / 1000)))).length
        = front.length := List.length_map _ _
    rw [List.getElem?_append_right (by rw [hlm]; exact le_of_lt hj),
      List.getElem?_append_right (le_of_lt hj), hlm]
  · unfold Game.getBoxCount
    rw [hboxes, h1]
    simp
  · rw [hboxes, h1]
    simp [Box.advance]
  · rw [hu]
    exact tickCat_spawnTime g dt
  · rw [hu]
    exact ⟨rfl, rfl, tickCat_targetCatX g dt⟩

/-- C14 on a game with three boxes, the second of which collides on a tick of
`1/60`: the third box is stored as before, the count is still 3 and the spawn
timer still `0.5`, while the clock has moved. -/
theorem C14_collision_frame_witness :
    threeBoxes.gameOver = false ∧ (threeBoxes.update (1 / 60) 0 0).gameOver = true ∧
    (threeBoxes.update (1 / 60) 0 0).boxes[2]? = some { x := 0, z := -10.7 } ∧
    (threeBoxes.update (1 / 60) 0 0).getBoxCount = threeBoxes.getBoxCount ∧
    (threeBoxes.update (1 / 60) 0 0).spawnTime = threeBoxes.spawnTime ∧
    (threeBoxes.update (1 / 60) 0 0).totalTime = threeBoxes.totalTime + 1 / 60 :=
  ⟨rfl, by decide!, by decide!,
    (C14_collision_frame threeBoxes (1 / 60) 0 0 rfl (by decide!)).2.1,
    (C14_collision_frame threeBoxes (1 / 60) 0 0 rfl (by decide!)).2.2.2.1,
    (C14_collision_frame threeBoxes (1 / 60) 0 0 rfl (by decide!)).2.2.2.2.1⟩

/-- C15: when the game is over, `update`, `goLeft` and `goRight` leave
`gameOver` set and `jump` clears it; when the game is running, `goLeft`,
`goRight` and `jump` leave `gameOver` clear, so that only `update` can set
it. -/
theorem C15_game_over_transitions (g : Game) :
    (g.gameOver = true →
      (∀ (dt : Rat) (r1 r2 : Nat), (g.update dt r1 r2).gameOver = true) ∧
      g.goLeft.gameOver = true ∧ g.goRight.gameOver = true ∧ g.jump.gameOver = false) ∧
    (g.gameOver = false →
      g.goLeft.gameOver = false ∧ g.goRight.gameOver = false ∧ g.jump.gameOver = false) := by
  have hl : g.goLeft.gameOver = g.gameOver := by
    unfold Game.goLeft; split_ifs <;> rfl
  have hr : g.goRight.gameOver = g.gameOver := by
    unfold Game.goRight; split_ifs <;> rfl
  constructor
  · intro h
    refine ⟨?_, by rw [hl, h], by rw [hr, h], ?_⟩
    · intro dt r1 r2
      rw [update_over g dt r1 r2 h]
      exact h
    · unfold Game.jump
      rw [if_pos h]
      rfl
  · intro h
    refine ⟨by rw [hl, h], by rw [hr, h], ?_⟩
    unfold Game.jump
    rw [if_neg (by simp [h])]
    split_ifs
    · exact h
    · exact h

/-- C15 on a game that is over and on the start state. -/
theorem C15_game_over_transitions_witness :
    (fallenGame.gameOver = true ∧ (fallenGame.update (1 / 60) 0 0).gameOver = true ∧
      fallenGame.goLeft.gameOver = true ∧ fallenGame.goRight.gameOver = true ∧
      fallenGame.jump.gameOver = false) ∧
    (startState.gameOver = false ∧ startState.goLeft.gameOver = false ∧
      startState.goRight.gameOver = false ∧ startState.jump.gameOver = false) :=
  ⟨⟨rfl, ((C15_game_over_transitions fallenGame).1 rfl).1 (1 / 60) 0 0,
      ((C15_game_over_transitions fallenGame).1 rfl).2⟩,
    ⟨rfl, (C15_game_over_transitions startState).2 rfl⟩⟩

/-- C16: after every sequence of calls on a reset game whose `update` calls
have a positive `dt`, `interpolator` lies in `[0, 1]` (it is even below 1),
`catRotation` lies in `[0, 90]`, and `catRotation` is 0 whenever `gameOver`
is false. -/
theorem C16_progress_and_tilt (g0 : Game) (cmds : List Command)
    (hpos : ∀ c ∈ cmds, c.positive) :
    (0 ≤ (run g0.reset cmds).interpolator ∧ (run g0.reset cmds).interpolator ≤ 1) ∧
    (0 ≤ (run g0.reset cmds).getCatRotation ∧ (run g0.reset cmds).getCatRotation ≤ 90) ∧
    ((run g0.reset cmds).gameOver = false → (run g0.reset cmds).getCatRotation = 0) := by
  obtain ⟨_, _, _, h0, h1, _⟩ :=
    run_invariant_positive moveInv moveInv_start moveInv_exec g0 cmds hpos
  obtain ⟨r0, r1, r2⟩ :=
    run_invariant_positive rotInv rotInv_start rotInv_exec g0 cmds hpos
  exact ⟨⟨h0, le_of_lt h1⟩, ⟨r0, r1⟩, r2⟩

/-- C16 on a run that ends one tick after a collision (the cat tilted by
`500/60` degrees) and on a run that ends with the cat one third of the way to
the next lane in a running game. -/
theorem C16_progress_and_tilt_witness :
    ((∀ c ∈ crashRun, c.positive) ∧
      (run (Game.reset startState) crashRun).gameOver = true ∧
      (run (Game.reset startState) crashRun).getCatRotation = 25 / 3 ∧
      (0 ≤ (run (Game.reset startState) crashRun).getCatRotation ∧
        (run (Game.reset startState) crashRun).getCatRotation ≤ 90)) ∧
    ((∀ c ∈ slideRun, c.positive) ∧
      (run (Game.reset startState) slideRun).gameOver = false ∧
      (run (Game.reset startState) slideRun).interpolator = 1 / 3 ∧
      (run (Game.reset startState) slideRun).getCatRotation = 0) :=
  ⟨⟨by simp [crashRun, Command.positive], by decide!, by decide!,
      (C16_progress_and_tilt startState crashRun
        (by simp [crashRun, Command.positive])).2.1⟩,
    ⟨by simp [slideRun, Command.positive], by decide!, by decide!,
      (C16_progress_and_tilt startState slideRun
        (by simp [slideRun, Command.positive])).2.2 (by decide!)⟩⟩

/-- C17: a tick of a running game never removes a box (for every `dt`, so for
every `dt > 0`): the count after the tick is the count before or one more,
and every box is still at its index with its lane.  The test `b.z > 0` of the
removal is only reached with `b.z` strictly between `-10.5` and `-9.5`, where
it fails. -/
theorem C17_no_removal (g : Game) (dt : Rat) (r1 r2 : Nat) (h : g.gameOver = false) :
    ((g.update dt r1 r2).getBoxCount = g.getBoxCount ∨
      (g.update dt r1 r2).getBoxCount = g.getBoxCount + 1) ∧
    (∀ (i : Nat) (hi : i < g.getBoxCount),
      ∃ b : Box, (g.update dt r1 r2).boxes[i]? = some b ∧
        b.x = (g.boxes.get ⟨i, hi⟩).x) ∧
    (∀ b ∈ g.boxes,
      ((b.advance (dt * (20 + (g.totalTime + dt) / 1000))).z > -10.5 ∧
        (b.advance (dt * (20 + (g.totalTime + dt) / 1000))).z < -9.5) →
      ¬ (b.advance (dt * (20 + (g.totalTime + dt) / 1000))).z > 0) := by
  refine ⟨update_length g dt r1 r2 h, ?_, ?_⟩
  · intro i hi
    have hi2 : i < g.boxes.length := hi
    have hsome : g.boxes[i]? = some (g.boxes.get ⟨i, hi⟩) := by
      rw [List.getElem?_eq_getElem hi2]; rfl
    rcases update_getElem? g dt r1 r2 h i hi2 with hb | hb
    · exact ⟨_, hb.trans hsome, rfl⟩
    · rw [hsome] at hb
      exact ⟨_, hb, rfl⟩
  · intro b _ hband hpos
    have h1 := hband.2
    norm_num at h1
    linarith

/-- C17 on a game with two boxes and a tick long enough to spawn a third: the
two boxes are still at indices 0 and 1, in lanes `-1` and `1`. -/
theorem C17_no_removal_witness :
    twoBoxes.gameOver = false ∧
    (twoBoxes.update 3 0 0).getBoxCount = twoBoxes.getBoxCount + 1 ∧
    (∃ b : Box, (twoBoxes.update 3 0 0).boxes[0]? = some b ∧ b.x = -1) ∧
    (∃ b : Box, (twoBoxes.update 3 0 0).boxes[1]? = some b ∧ b.x = 1) :=
  ⟨rfl, by decide!,
    (C17_no_removal twoBoxes 3 0 0 rfl).2.1 0 (by decide),
    (C17_no_removal twoBoxes 3 0 0 rfl).2.1 1 (by decide)⟩

/-- C18: on a tick of a running game that signals a collision at index `i`
(the length of `front`), the boxes at the indices below `i` are stored with
their depth advanced by `dt * (20 + totalTime / 1000)`, while the colliding
box is stored with the depth it had before the tick, which is what
`getBoxLocation i` then reports; and that depth can lie outside the band: the
box of `scenarioC` collides from depth `-10.6` and is reported at `-10.6`. -/
theorem C18_collider_not_stored :
    (∀ (g : Game) (dt : Rat) (r1 r2 : Nat), g.gameOver = false →
      (g.update dt r1 r2).gameOver = true →
      ∃ (front : List Box) (b : Box) (back : List Box),
        g.boxes = front ++ b :: back ∧
        (b.advance (dt * (20 + (g.totalTime + dt) / 1000))).hits
          (g.tickCat dt).catX (g.tickCat dt).catY ∧
        (g.update dt r1 r2).boxes
          = front.map (Box.advance (dt * (20 + (g.totalTime + dt) / 1000))) ++ b :: back ∧
        (∀ (j : Nat) (c : Box), j < front.length → g.boxes[j]? = some c →
          (g.update dt r1 r2).boxes[j]?
            = some { x := c.x, z := c.z + dt * (20 + (g.totalTime + dt) / 1000) }) ∧
        (g.update dt r1 r2).boxes[front.length]? = some b ∧
        (Game.getBoxLocation (g.update dt r1 r2) front.length).1
          = Except.ok { x := (b.x : Rat) * 3, y := -4, z := b.z }) ∧
    (scenarioC.gameOver = false ∧ (scenarioC.update (1 / 60) 0 0).gameOver = true ∧
      (Game.getBoxLocation (scenarioC.update (1 / 60) 0 0) 0).1
        = Except.ok { x := 0, y := -4, z := -10.6 } ∧
      ¬ ((-10.5 : Rat) < -10.6 ∧ (-10.6 : Rat) < -9.5)) := by
  constructor
  · intro g dt r1 r2 h hc
    have hs := update_gameOver_eq g dt r1 r2 h
    rw [hc] at hs
    obtain ⟨front, b, back, h1, _, h3, h4⟩ := sweep_hit_split _ _ _ _ hs.symm
    have hu := update_collision g dt r1 r2 h hc
    have hboxes : (g.update dt r1 r2).boxes
        = front.map (Box.advance (dt * (20 + (g.totalTime + dt) / 1000))) ++ b :: back := by
      rw [hu]; exact h4
    have hlm : (front.map (Box.advance (dt * (20 + (g.totalTime + dt) / 1000)))).length
        = front.length := List.length_map _ _
    have hat : (g.update dt r1 r2).boxes[front.length]? = some b := by
      rw [hboxes, ← hlm]
      exact getElem?_append_length_cons _ _ _
    refine ⟨front, b, back, h1, h3, hboxes, ?_, hat, ?_⟩
    · intro j c hj hjc
      rw [h1, List.getElem?_append_left hj] at hjc
      rw [hboxes, List.getElem?_append_left (by rw [hlm]; exact hj), List.getElem?_map, hjc]
      rfl
    · unfold Game.getBoxLocation
      rw [hat]
  · refine ⟨rfl, ?_, ?_, ?_⟩
    · decide!
    · decide!
    · norm_num

/-- C18 on the game with three boxes: the first box is stored advanced, the
second, at which the tick stops, is stored and reported at its old depth. -/
theorem C18_collider_not_stored_witness :
    threeBoxes.gameOver = false ∧ (threeBoxes.update (1 / 60) 0 0).gameOver = true ∧
    (∃ (front : List Box) (b : Box) (back : List Box),
      threeBoxes.boxes = front ++ b :: back ∧
      (threeBoxes.update (1 / 60) 0 0).boxes[front.length]? = some b) ∧
    (threeBoxes.update (1 / 60) 0 0).boxes
      = [{ x := 1, z := -10.6 + 1 / 60 * (20 + (0 + 1 / 60) / 1000) },
         { x := 0, z := -10.6 }, { x := 0, z := -10.7 }] :=
  ⟨rfl, by decide!,
    (C18_collider_not_stored.1 threeBoxes (1 / 60) 0 0 rfl (by decide!)).imp
      (fun _ hf => hf.imp (fun _ hb => hb.imp (fun _ hk => ⟨hk.1, hk.2.2.2.2.1⟩))),
    by decide!⟩

/-- C19: after every sequence of calls on a reset game whose `update` calls
have a positive `dt`: `targetCatX` and `catX` differ by at most 1,
`interpolator` is 0 whenever `catX = targetCatX`, and `0 ≤ interpolator < 1`;
so the first coordinate of `getCatLocation`, which is
`3 * (catX + interpolator * (targetCatX - catX))`, lies in `[-3, 3]`, the
second is `catY - 4 ≥ -4` and the third is `-10`. -/
theorem C19_cat_location (g0 : Game) (cmds : List Command)
    (hpos : ∀ c ∈ cmds, c.positive) :
    (|(run g0.reset cmds).targetCatX - (run g0.reset cmds).catX| ≤ 1) ∧
    ((run g0.reset cmds).catX = (run g0.reset cmds).targetCatX →
      (run g0.reset cmds).interpolator = 0) ∧
    (0 ≤ (run g0.reset cmds).interpolator ∧ (run g0.reset cmds).interpolator < 1) ∧
    ((run g0.reset cmds).getCatLocation.x
        = 3 * (((run g0.reset cmds).catX : Rat) + (run g0.reset cmds).interpolator
            * (((run g0.reset cmds).targetCatX : Rat) - ((run g0.reset cmds).catX : Rat))) ∧
      -3 ≤ (run g0.reset cmds).getCatLocation.x ∧
      (run g0.reset cmds).getCatLocation.x ≤ 3) ∧
    ((run g0.reset cmds).getCatLocation.y = (run g0.reset cmds).catY - 4 ∧
      -4 ≤ (run g0.reset cmds).getCatLocation.y) ∧
    (run g0.reset cmds).getCatLocation.z = -10 := by
  obtain ⟨hx, ht, hd, h0, h1, he⟩ :=
    run_invariant_positive moveInv moveInv_start moveInv_exec g0 cmds hpos
  obtain ⟨hy, _⟩ :=
    run_invariant jumpInv ⟨le_refl _, fun _ => ⟨rfl, rfl⟩⟩ jumpInv_exec g0 cmds
  generalize run g0.reset cmds = g at hx ht hd h0 h1 he hy
  have hloc : g.getCatLocation.x
      = 3 * ((g.catX : Rat) + g.interpolator * ((g.targetCatX : Rat) - (g.catX : Rat))) := by
    unfold Game.getCatLocation
    dsimp only
    push_cast
    ring
  refine ⟨abs_le.mpr ⟨by omega, by omega⟩, he, ⟨h0, h1⟩, ⟨hloc, ?_, ?_⟩, ⟨rfl, ?_⟩, rfl⟩
  · rw [hloc]
    unfold isLane at hx ht
    rcases hx with hx | hx | hx <;> rcases ht with ht | ht | ht <;>
      rw [hx, ht] <;> push_cast <;> nlinarith
  · rw [hloc]
    unfold isLane at hx ht
    rcases hx with hx | hx | hx <;> rcases ht with ht | ht | ht <;>
      rw [hx, ht] <;> push_cast <;> nlinarith
  · unfold Game.getCatLocation
    dsimp only
    linarith

/-- C19 on a run that ends with the cat one third of the way from lane 0 to
lane `-1`: the location is `(-1, -4, -10)`. -/
theorem C19_cat_location_witness :
    (∀ c ∈ slideRun, c.positive) ∧
    (run (Game.reset startState) slideRun).getCatLocation = { x := -1, y := -4, z := -10 } ∧
    (-3 ≤ (run (Game.reset startState) slideRun).getCatLocation.x ∧
      (run (Game.reset startState) slideRun).getCatLocation.x ≤ 3) ∧
    (run (Game.reset startState) (slideRun ++ [Command.update (1 / 30) 0 0])).catX
      = (run (Game.reset startState) (slideRun ++ [Command.update (1 / 30) 0 0])).targetCatX ∧
    (run (Game.reset startState) (slideRun ++ [Command.update (1 / 30) 0 0])).interpolator = 0 :=
  ⟨by simp [slideRun, Command.positive], by decide!,
    ⟨(C19_cat_location startState slideRun (by simp [slideRun, Command.positive])).2.2.2.1.2.1,
      (C19_cat_location startState slideRun (by simp [slideRun, Command.positive])).2.2.2.1.2.2⟩,
    by decide!,
    (C19_cat_location startState (slideRun ++ [Command.update (1 / 30) 0 0])
      (by simp [slideRun, Command.positive])).2.1 (by decide!)⟩

end CatGame
